import Mathlib

/-!
Verification development for the `optionparser` library
(template class `BasicOptionParser<CharT>`, instantiated at `CharT = char`).

The embedding below translates the C++ source functions into Lean:

* `std::basic_string<char>` becomes `Str := List Char`.  `operator[]` is
  `strIdx`, which returns the NUL character out of range (C++ guarantees a
  terminating NUL at index `size()`; the source only indexes at most one
  past the last character).
* callbacks are modelled observationally: a `Callback` records an identity
  and which of the two arms (`real_noval` / `real_strval`) is bound; an
  invocation produces an `Event` in an output trace, and invoking the
  unbound arm produces the corresponding `runtime_error` (`novalNull` /
  `strvalNull`), exactly as `Callback::invoke` does.
* exceptions become `Except PErr`.  The distinct C++ exception classes map
  to distinct `PErr` constructors.
* `stop_if` callbacks receive the parser object in C++; the state they can
  observe and that the library itself mutates during a scan is the
  positional list, so they are embedded as `List Str → Bool` over the
  current positional list (this is what `stopIfSawPositional` inspects).
* the default `-h`/`--help` declaration is registered by `init`; its
  process-terminating side effect is outside the model, the declaration
  itself (and hence lookup behaviour) is embedded faithfully.

Source functions keep their names: `isalphanum`, `isvalidlongopt`,
`isvaliddosopt`, `addDeclaration`, `find_decl_short`, `find_decl_long`,
`parse_multishort`, `parse_simpleshort`, `parse_longoption`, `realparse`
(`realparse_loop` is its explicit loop), `parse`, `onUnknownOption`.
-/

namespace OptParse

abbrev Str := List Char

/-- NUL character, the value `std::basic_string::operator[]` yields at
index `size()`. -/
def nulChar : Char := Char.ofNat 0

/-- `std::string` subscript: the character at `i`, NUL out of range. -/
def strIdx (s : Str) (i : Nat) : Char := s.getD i nulChar

/-- `std::string::find_first_of` for a single character: index of the
first occurrence, if any. -/
def find_first_of (s : Str) (c : Char) : Option Nat :=
  match s with
  | [] => none
  | x :: xs => if x = c then some 0 else (find_first_of xs c).map (fun n => n + 1)

/-- wrap around isalnum to permit the extra flag characters, as in the
source (`"?!#".find_first_of(c) != npos`). -/
def isalphanum (c : Char) : Bool :=
  c.isAlphanum || c = '?' || c = '!' || c = '#'

/-- a token is long GNU style iff it begins with two hyphens. -/
def isvalidlongopt (s : Str) : Bool :=
  strIdx s 0 = '-' && strIdx s 1 = '-'

/-- a token is DOS style iff it begins with a slash followed by an
(extended) alphanumeric character. -/
def isvaliddosopt (s : Str) : Bool :=
  strIdx s 0 = '/' && isalphanum (strIdx s 1)

/-- error taxonomy: each constructor stands for one C++ exception site.
`unparseableSyntax`, `inconsistentLong`, `inconsistentShort` and
`impossibleLong` are thrown as `Error` during declaration compilation;
`invalidOption` is `InvalidOptionError`; `valueNeeded` is
`ValueNeededError`; `novalNull` / `strvalNull` are the `runtime_error`s
thrown by `Callback::invoke` when the requested arm is null. -/
inductive PErr where
  | unparseableSyntax : PErr
  | inconsistentLong : PErr
  | inconsistentShort : PErr
  | impossibleLong : PErr
  | invalidOption : PErr
  | valueNeeded : PErr
  | novalNull : PErr
  | strvalNull : PErr
deriving DecidableEq, Repr

/-- which arm of the `Callback` union is bound. -/
inductive CBKind where
  | noval : CBKind
  | withval : CBKind
deriving DecidableEq, Repr

/-- observable callback invocation. -/
inductive Event where
  | noval (id : Nat) : Event
  | withval (id : Nat) (v : Str) : Event
deriving DecidableEq, Repr

/-- the `Callback` union, modelled observationally: `id` identifies the
stored closure, `kind` says which arm is non-null. -/
structure Callback where
  id : Nat
  kind : CBKind
deriving DecidableEq, Repr

/-- `Callback::invoke()`: fires the no-value arm, or throws if it is null. -/
def Callback.invokeNo (cb : Callback) : Except PErr Event :=
  if cb.kind = CBKind.noval then .ok (.noval cb.id) else .error .novalNull

/-- `Callback::invoke(string)`: fires the with-value arm, or throws. -/
def Callback.invokeVal (cb : Callback) (v : Str) : Except PErr Event :=
  if cb.kind = CBKind.withval then .ok (.withval cb.id v) else .error .strvalNull

/-- one long spelling with its style tag. -/
structure LongOption where
  name : Str
  isgnu : Bool
deriving DecidableEq, Repr

/-- a compiled option declaration. -/
structure Declaration where
  needvalue : Bool := false
  shortnames : List Char := []
  longnames : List LongOption := []
  description : Str := []
  callback : Callback
deriving DecidableEq, Repr

/-- `Declaration::is(CharT)`: `c` is recognised as one of the short
spellings. -/
def Declaration.isShort (d : Declaration) (c : Char) : Bool :=
  d.shortnames.contains c

/-- `Declaration::is(string)`: `s` is recognised as one of the long
spellings. -/
def Declaration.isLong (d : Declaration) (s : Str) : Bool :=
  d.longnames.any (fun l => l.name == s)

/-- the loop state of `addDeclaration`: the `had*` / `*wantvalue` locals
plus the accumulated name lists and the `m_dosoptsdeclared` side effect. -/
structure AddState where
  hadlongopts : Bool := false
  hadshortopts : Bool := false
  longwantvalue : Bool := false
  shortwantvalue : Bool := false
  shortnames : List Char := []
  longnames : List LongOption := []
  dosopts : Bool := false
deriving DecidableEq, Repr

/-- one iteration of the `addDeclaration` loop: classify one grammar
token and update the state, or throw.  The locals of the source are
spelled out: `longbegin1/2` are `strIdx s 0/1`, `longend` and `longeq`
are `strIdx s (s.length - 1)` and `strIdx s (s.length - 2)`, `isgnu` is
the double-hyphen test, `shortname` is `strIdx s 1`, `shortend` is the
last character. -/
def classifyToken (st : AddState) (s : Str) : Except PErr AddState :=
  if isvalidlongopt s || isvaliddosopt s then
    if strIdx s 0 = '-' && strIdx s 1 = '-' then
      .ok { st with hadlongopts := true,
                    longwantvalue :=
                      strIdx s (s.length - 2) = '=' && strIdx s (s.length - 1) = '?',
                    longnames := st.longnames ++
                      [⟨if strIdx s (s.length - 2) = '=' && strIdx s (s.length - 1) = '?'
                        then (s.drop 2).take (s.length - 4) else s.drop 2, true⟩] }
    else if strIdx s 0 = '/' || strIdx s 0 = '-' then
      .ok { st with hadlongopts := true,
                    longwantvalue :=
                      strIdx s (s.length - 2) = ':' && strIdx s (s.length - 1) = '?',
                    longnames := st.longnames ++
                      [⟨if strIdx s (s.length - 2) = ':' && strIdx s (s.length - 1) = '?'
                        then (s.drop 1).take (s.length - 3) else s.drop 1, false⟩],
                    dosopts := true }
    else
      .error .impossibleLong
  else if strIdx s 0 = '-' && isalphanum (strIdx s 1) then
    .ok { st with hadshortopts := true,
                  shortwantvalue :=
                    strIdx s (s.length - 1) = '?' && strIdx s (s.length - 1) ≠ strIdx s 1,
                  shortnames := st.shortnames ++ [strIdx s 1] }
  else
    .error .unparseableSyntax

/-- the whole `addDeclaration` token loop. -/
def compileTokens (strs : List Str) (st : AddState) : Except PErr AddState :=
  match strs with
  | [] => .ok st
  | s :: rest =>
    match classifyToken st s with
    | .error e => .error e
    | .ok st2 => compileTokens rest st2

/-- parser state: the member fields of `BasicOptionParser` that the scan
reads or writes. -/
structure Parser where
  m_declarations : List Declaration := []
  m_on_unknownoptfn : Option (Str → Bool) := none
  m_stopif_funcs : List (List Str → Bool) := []
  m_positional : List Str := []
  m_vargs : List Str := []
  m_dosoptsdeclared : Bool := false

/-- `addDeclaration`: compile a set of grammar tokens, run the
cross-category consistency checks, and register the declaration.  An
empty token set returns without registering anything. -/
def addDeclaration (p : Parser) (strs : List Str) (desc : Str) (fn : Callback) :
    Except PErr Parser :=
  if strs = [] then .ok p
  else
    match compileTokens strs {} with
    | .error e => .error e
    | .ok st =>
      if st.longwantvalue && (!st.shortwantvalue && st.hadshortopts) then
        .error .inconsistentLong
      else if st.shortwantvalue && (!st.longwantvalue && st.hadlongopts) then
        .error .inconsistentShort
      else
        .ok { p with
          m_dosoptsdeclared := p.m_dosoptsdeclared || st.dosopts,
          m_declarations := p.m_declarations ++
            [{ needvalue := st.longwantvalue && st.shortwantvalue,
               shortnames := st.shortnames,
               longnames := st.longnames,
               description := desc,
               callback := fn }] }

/-- `find_decl_short`: first registered declaration recognising `c`. -/
def find_decl_short (decls : List Declaration) (c : Char) : Option Declaration :=
  decls.find? (fun d => d.isShort c)

/-- `find_decl_long`: first registered declaration recognising `name`. -/
def find_decl_long (decls : List Declaration) (name : Str) : Option Declaration :=
  decls.find? (fun d => d.isLong name)

/-- `invoke_on_unknown_prox`: consult the registered unknown-option
callback; absent one, the default answer is `true` (fatal). -/
def invoke_on_unknown_prox (p : Parser) (optstr : Str) : Bool :=
  match p.m_on_unknownoptfn with
  | none => true
  | some f => f optstr

/-- `invoke_on_unknown(const string&)`: prepend `--` to the name. -/
def invoke_on_unknown_long (p : Parser) (s : Str) : Bool :=
  invoke_on_unknown_prox p ('-' :: '-' :: s)

/-- `invoke_on_unknown(CharT)`: prepend `-` to the character. -/
def invoke_on_unknown_short (p : Parser) (c : Char) : Bool :=
  invoke_on_unknown_prox p ['-', c]

/-- the loop body of `parse_multishort`: scan the bundle characters left
to right; `isFirst` is the `i == 0` test, `str` the whole bundle (used
for the value remainder `str.substr(1)`).  `invoke_or_throw` is inlined
in the unknown branch; its cursor arithmetic is `iref + 0`, a no-op, so
only the throw-or-skip decision remains (a skip abandons the bundle). -/
def multishort_go (p : Parser) (str : Str) (chars : List Char) (isFirst : Bool) :
    Except PErr (List Event) :=
  match chars with
  | [] => .ok []
  | c :: rest =>
    match find_decl_short p.m_declarations c with
    | some decl =>
      if decl.needvalue && isFirst then
        if str.length > 1 then
          (decl.callback.invokeVal (str.drop 1)).map (fun e => [e])
        else
          .error .valueNeeded
      else if decl.needvalue then
        .error .valueNeeded
      else
        match decl.callback.invokeNo with
        | .error e => .error e
        | .ok ev => (multishort_go p str rest false).map (fun es => ev :: es)
    | none =>
      if invoke_on_unknown_short p c then .error .invalidOption else .ok []

/-- `parse_multishort`: a short token with more than one character. -/
def parse_multishort (p : Parser) (str : Str) : Except PErr (List Event) :=
  multishort_go p str str true

/-- `parse_simpleshort`: a short token of exactly one character; `next`
is `m_vargs[iref+1]` when it exists.  The returned flag says whether the
next token was consumed as a value (the `iref++`). -/
def parse_simpleshort (p : Parser) (c : Char) (next : Option Str) :
    Except PErr (List Event × Bool) :=
  match find_decl_short p.m_declarations c with
  | some decl =>
    if decl.needvalue then
      match next with
      | some v =>
        if strIdx v 0 ≠ '-' then
          (decl.callback.invokeVal v).map (fun e => ([e], true))
        else
          .error .valueNeeded
      | none => .error .valueNeeded
    else
      (decl.callback.invokeNo).map (fun e => ([e], false))
  | none =>
    if invoke_on_unknown_short p c then .error .invalidOption
    else .ok ([], false)

/-- the `name` local of `parse_longoption`: the token minus its
two-character prefix (`nodash`), cut at the first `=` when one is present
(`eqpos` is searched in the full token, and the `substr` arithmetic
compensates for the prefix). -/
def longoption_name (argstring : Str) : Str :=
  match find_first_of argstring '=' with
  | none => argstring.drop 2
  | some e => (argstring.drop 2).take (e - 2)

/-- `parse_longoption`: resolve the name cut out of the token; a
value-needing declaration takes the text after the first `=` (cut out of
`nodash = argstring.drop 2` at `eqpos - 1`) or raises `ValueNeeded` when
there is no `=`. -/
def parse_longoption (p : Parser) (argstring : Str) : Except PErr (List Event) :=
  match find_decl_long p.m_declarations (longoption_name argstring) with
  | some decl =>
    if decl.needvalue then
      match find_first_of argstring '=' with
      | none => .error .valueNeeded
      | some e =>
        (decl.callback.invokeVal ((argstring.drop 2).drop (e - 1))).map (fun e2 => [e2])
    else
      (decl.callback.invokeNo).map (fun e => [e])
  | none =>
    if invoke_on_unknown_long p (longoption_name argstring) then .error .invalidOption
    else .ok []

/-- prefix the events of one iteration onto the outcome of the rest of
the scan. -/
def withEvents (es : List Event) (r : Except PErr (List Str × List Event)) :
    Except PErr (List Str × List Event) :=
  match r with
  | .error e => .error e
  | .ok pr => .ok (pr.1, es ++ pr.2)

/-- outcome of one `realparse` iteration: either the scan aborts with a
final result, or it continues with updated stop flag and positional list,
the events fired by this token, and (for a simple short option that took
the following token as its value) one extra token to skip — the `iref++`
performed inside `parse_simpleshort`. -/
inductive StepRes where
  | halt (out : Except PErr (List Str × List Event)) : StepRes
  | recurse (stop2 : Bool) (pos2 : List Str) (skip : Bool) (es : List Event) : StepRes

/-- one iteration of the `realparse` loop over the current token `a`
(`next` is the following token, if any): handle `--`, then classify the
token exactly as `realparse` does.  `stop2` is the `stopparsing` local
after the `stop_if` callbacks of this iteration ran (the loop computes
it); `a.drop 1` is the `nodash` local. -/
def realparse_step (p : Parser) (stop2 : Bool) (pos : List Str)
    (a : Str) (next : Option Str) : StepRes :=
  if a = ['-', '-'] ∧ stop2 = false then
    .recurse true pos false []
  else if stop2 then
    .recurse stop2 (pos ++ [a]) false []
  else if strIdx a 0 = '-' then
    if strIdx a 1 = '-' then
      match parse_longoption p a with
      | .error e => .halt (.error e)
      | .ok es => .recurse stop2 pos false es
    else if (a.drop 1).length > 1 then
      match parse_multishort p (a.drop 1) with
      | .error e => .halt (.error e)
      | .ok es => .recurse stop2 pos false es
    else
      match parse_simpleshort p (strIdx (a.drop 1) 0) next with
      | .error e => .halt (.error e)
      | .ok (es, consumed) => .recurse stop2 pos consumed es
  else
    .recurse stop2 (pos ++ [a]) false []

/-- the `realparse` loop.  `stopparsing` and the positional accumulator
are threaded explicitly; the remaining argument suffix stands for the
cursor.  Each iteration first evaluates the `stop_if` callbacks, then
steps over the current token. -/
def realparse_loop (p : Parser) : Bool → List Str → List Str →
    Except PErr (List Str × List Event)
  | _, pos, [] => .ok (pos, [])
  | stopparsing, pos, a :: rest =>
    match realparse_step p
        (stopparsing || p.m_stopif_funcs.any (fun f => f pos)) pos a rest.head? with
    | .halt out => out
    | .recurse stop2 pos2 skip es =>
      if skip then
        match rest with
        | [] => .ok (pos2, es)
        | _ :: rest2 => withEvents es (realparse_loop p stop2 pos2 rest2)
      else
        withEvents es (realparse_loop p stop2 pos2 rest)

/-- `realparse`: run the scan over `m_vargs`, appending to the positional
list already held by the parser. -/
def realparse (p : Parser) : Except PErr (Parser × List Event) :=
  match realparse_loop p false p.m_positional p.m_vargs with
  | .error e => .error e
  | .ok (pos, es) => .ok ({ p with m_positional := pos }, es)

/-- `parse(const std::vector<string>&)`: replace `m_vargs` and scan. -/
def parse (p : Parser) (args : List Str) : Except PErr (Parser × List Event) :=
  realparse { p with m_vargs := args }

/-- `onUnknownOption`: install the unknown-option callback. -/
def onUnknownOption (p : Parser) (f : Str → Bool) : Parser :=
  { p with m_on_unknownoptfn := some f }

/-- `stopIf`: register a stop predicate. -/
def stopIf (p : Parser) (f : List Str → Bool) : Parser :=
  { p with m_stopif_funcs := p.m_stopif_funcs ++ [f] }

/-- the default help callback registered by `init` (callback identity 0;
it has no-value shape). -/
def helpCallback : Callback := ⟨0, CBKind.noval⟩

/-- `init`: register the default `-h` / `--help` declaration if asked. -/
def init (p : Parser) (declhelp : Bool) : Except PErr Parser :=
  if declhelp then
    addDeclaration p [['-', 'h'], ['-', '-', 'h', 'e', 'l', 'p']]
      "show this help".data helpCallback
  else
    .ok p

/-- the constructor `BasicOptionParser(bool declhelp)`. -/
def mkParser (declhelp : Bool) : Except PErr Parser :=
  init {} declhelp

/-- observable outcome of a parse: the positional list and the callback
trace (the parser record itself holds functions, so results are compared
through this projection). -/
def parseOut (p : Parser) (args : List Str) : Except PErr (List Str × List Event) :=
  match parse p args with
  | .error e => .error e
  | .ok (q, es) => .ok (q.m_positional, es)

/-- construct a parser, register one declaration (an empty token list
registers nothing), optionally install an unknown-option callback, and
scan: the composition the test-style claims exercise. -/
def regParseU (declhelp : Bool) (strs : List Str) (uf : Option (Str → Bool))
    (fn : Callback) (args : List Str) : Except PErr (List Str × List Event) :=
  match mkParser declhelp with
  | .error e => .error e
  | .ok p =>
    match addDeclaration p strs [] fn with
    | .error e => .error e
    | .ok q => parseOut { q with m_on_unknownoptfn := uf } args

end OptParse

namespace OptParse

/-- positional lists and callback traces after registering a declaration
and scanning, projected through `Except.map` onto the compiled
`needvalue` flags: used to observe what `addDeclaration` compiled. -/
def declNeedvalues (declhelp : Bool) (strs : List Str) (fn : Callback) :
    Except PErr (List Bool) :=
  match mkParser declhelp with
  | .error e => .error e
  | .ok p =>
    match addDeclaration p strs [] fn with
    | .error e => .error e
    | .ok q => .ok (q.m_declarations.map (fun d => d.needvalue))

/-- `c` resolves to a declaration that takes no value and carries a
no-value callback: the bundle characters that `parse_multishort` can
step over. -/
def resolvesNoval (decls : List Declaration) (c : Char) : Bool :=
  match find_decl_short decls c with
  | some d => !d.needvalue && d.callback.kind == CBKind.noval
  | none => false

/-- the token is classified into the long branch of `addDeclaration`. -/
def tokenIsLong (s : Str) : Bool :=
  isvalidlongopt s || isvaliddosopt s

/-- the value-marker test the long branch applies to one token. -/
def longMarker (s : Str) : Bool :=
  if strIdx s 0 = '-' && strIdx s 1 = '-' then
    strIdx s (s.length - 2) = '=' && strIdx s (s.length - 1) = '?'
  else
    strIdx s (s.length - 2) = ':' && strIdx s (s.length - 1) = '?'

/-- the token is classified into the short branch of `addDeclaration`. -/
def tokenIsShort (s : Str) : Bool :=
  !(tokenIsLong s) && (strIdx s 0 = '-' && isalphanum (strIdx s 1))

/-- the value-marker test the short branch applies to one token. -/
def shortMarker (s : Str) : Bool :=
  strIdx s (s.length - 1) = '?' && strIdx s (s.length - 1) ≠ strIdx s 1

/-- the per-category flag after a token sequence: each token of the
category overwrites the flag with its own marker status. -/
def foldWant (isCat : Str → Bool) (mark : Str → Bool) (strs : List Str) (a : Bool) : Bool :=
  match strs with
  | [] => a
  | s :: rest => foldWant isCat mark rest (if isCat s then mark s else a)

/-- a value-taking declaration for `-o` (with-value callback 1). -/
def dOpt : Declaration :=
  { needvalue := true, shortnames := ['o'],
    longnames := [⟨['o', 'u', 't'], true⟩], description := [],
    callback := ⟨1, CBKind.withval⟩ }

/-- a plain flag declaration for `-v` (no-value callback 2). -/
def dVerb : Declaration :=
  { needvalue := false, shortnames := ['v'], longnames := [],
    description := [], callback := ⟨2, CBKind.noval⟩ }

/-- a parser holding the two sample declarations. -/
def pC : Parser := { m_declarations := [dOpt, dVerb] }

end OptParse

deriving instance DecidableEq for Except

namespace OptParse

set_option maxHeartbeats 1600000

/-- Claim C1: with `{"-o?", "--out=?"}` registered (callback 1, with-value
shape) on a default parser, scanning `["--out=x"]`, `["-o","x"]` and
`["-ox"]` each invokes the with-value callback exactly once with `"x"`,
and no token is appended to the positional list. -/
theorem C1_roundtrip_value_option :
    regParseU true ["-o?".data, "--out=?".data] none ⟨1, CBKind.withval⟩
        ["--out=x".data] = .ok ([], [Event.withval 1 ['x']]) ∧
    regParseU true ["-o?".data, "--out=?".data] none ⟨1, CBKind.withval⟩
        ["-o".data, ['x']] = .ok ([], [Event.withval 1 ['x']]) ∧
    regParseU true ["-o?".data, "--out=?".data] none ⟨1, CBKind.withval⟩
        ["-ox".data] = .ok ([], [Event.withval 1 ['x']]) := by
  refine ⟨by decide, by decide, by decide⟩

/-- Claim C4 (code bug): registering the long-only set `{"--out=?"}` does
succeed without a cross-category check, but the compiled declaration has
`needvalue = false`, because `addDeclaration` computes
`needvalue = longwantvalue && shortwantvalue` and the short-side flag was
never set; consequently scanning `["--out=x"]` invokes the no-value arm
of the registered with-value callback and dies with the internal
`"real_noval is NULL"` error. -/
theorem C4_longonly_needvalue_bug :
    declNeedvalues false ["--out=?".data] ⟨1, CBKind.withval⟩ = .ok [false] ∧
    regParseU false ["--out=?".data] none ⟨1, CBKind.withval⟩
        ["--out=x".data] = .error .novalNull := by
  refine ⟨by decide, by decide⟩

/-- Claim C5 (counterexample): compiling the set `{"--out=?", "--output"}`
leaves `longwantvalue` FALSE, not true as claimed: the flag is reassigned
by every long token, so the last one (`"--output"`, no marker) wins. -/
theorem C5_lastwins_counterexample :
    (compileTokens ["--out=?".data, "--output".data] {}).map AddState.longwantvalue
        = .ok false ∧
    ¬ ((compileTokens ["--out=?".data, "--output".data] {}).map AddState.longwantvalue
        = .ok true) := by
  refine ⟨by decide, by decide⟩

/-- Claim C7: an argument resolving to no declaration raises
`InvalidOption` when no unknown-option callback is registered; with a
callback returning `false` the offending token is skipped and scanning
continues, so `["--bogus","x"]` ends with positional `["x"]`. -/
theorem C7_unknown_option_policy :
    regParseU true [] none ⟨1, CBKind.noval⟩ ["--bogus".data]
        = .error .invalidOption ∧
    regParseU true [] (some (fun _ => false)) ⟨1, CBKind.noval⟩
        ["--bogus".data, ['x']] = .ok ([['x']], []) := by
  refine ⟨by decide, by decide⟩

/-- Claim C8 (counterexample): for the argument token `--bogus=x` the
unknown-option callback does NOT receive the full token: a policy that is
fatal exactly on `"--bogus=x"` never fires (the scan succeeds), while a
policy that is fatal exactly on `"--bogus"` fires — the callback receives
the reconstructed `--` + name with the `=x` text stripped. -/
theorem C8_unknown_gets_stripped_token :
    regParseU true [] (some (fun s => decide (s = "--bogus=x".data)))
        ⟨1, CBKind.noval⟩ ["--bogus=x".data] = .ok ([], []) ∧
    regParseU true [] (some (fun s => decide (s = "--bogus".data)))
        ⟨1, CBKind.noval⟩ ["--bogus=x".data] = .error .invalidOption := by
  refine ⟨by decide, by decide⟩

/-- Claim C10: the bare token `-` is not positional: the scanner takes the
empty remainder after the dash and dispatches a simple short option named
by the NUL terminator character.  With no policy this raises
`InvalidOption`; an equality-testing policy shows the consulted spelling
is exactly `['-', NUL]`, and a non-fatal policy leaves the positional
list empty. -/
theorem C10_single_dash_invalid :
    regParseU true [] none ⟨1, CBKind.noval⟩ [['-']] = .error .invalidOption ∧
    regParseU true [] (some (fun s => decide (s = ['-', nulChar])))
        ⟨1, CBKind.noval⟩ [['-']] = .error .invalidOption ∧
    regParseU true [] (some (fun s => !(decide (s = ['-', nulChar]))))
        ⟨1, CBKind.noval⟩ [['-']] = .ok ([], []) := by
  refine ⟨by decide, by decide, by decide⟩

end OptParse

namespace OptParse

lemma resolvesNoval_spec {decls : List Declaration} {c : Char}
    (h : resolvesNoval decls c = true) :
    ∃ d, find_decl_short decls c = some d ∧ d.needvalue = false ∧
      d.callback.kind = CBKind.noval := by
  unfold resolvesNoval at h
  cases hf : find_decl_short decls c with
  | none => rw [hf] at h; cases h
  | some d =>
    rw [hf] at h
    obtain ⟨h1, h2⟩ := Bool.and_eq_true_iff.mp h
    refine ⟨d, rfl, ?_, beq_iff_eq.mp h2⟩
    cases hnv : d.needvalue
    · rfl
    · rw [hnv] at h1; cases h1

lemma multishort_go_all_noval (p : Parser) (str : Str) :
    ∀ (chars : List Char) (isFirst : Bool),
      chars.all (resolvesNoval p.m_declarations) = true →
      multishort_go p str chars isFirst =
        .ok (chars.filterMap (fun c =>
          (find_decl_short p.m_declarations c).map (fun d => Event.noval d.callback.id))) := by
  intro chars
  induction chars with
  | nil => intro isFirst _; simp [multishort_go]
  | cons c rest ih =>
    intro isFirst h
    rw [List.all_cons, Bool.and_eq_true_iff] at h
    obtain ⟨d, hf, hnv, hk⟩ := resolvesNoval_spec h.1
    simp [multishort_go, hf, hnv, Callback.invokeNo, hk, ih false h.2, Except.map]

lemma multishort_go_midbundle (p : Parser) (str : Str) :
    ∀ (pre : List Char) (isFirst : Bool) (c : Char) (rest : List Char) (d : Declaration),
      pre.all (resolvesNoval p.m_declarations) = true →
      (isFirst = false ∨ pre ≠ []) →
      find_decl_short p.m_declarations c = some d →
      d.needvalue = true →
      multishort_go p str (pre ++ c :: rest) isFirst = .error .valueNeeded := by
  intro pre
  induction pre with
  | nil =>
    intro isFirst c rest d _ hor hf hnv
    have hisF : isFirst = false := by
      rcases hor with h | h
      · exact h
      · exact absurd rfl h
    subst hisF
    simp [multishort_go, hf, hnv]
  | cons c2 pre2 ih =>
    intro isFirst c rest d hall hor hf hnv
    rw [List.all_cons, Bool.and_eq_true_iff] at hall
    obtain ⟨d2, hf2, hnv2, hk2⟩ := resolvesNoval_spec hall.1
    simp [multishort_go, hf2, hnv2, Callback.invokeNo, hk2,
          ih false c rest d hall.2 (Or.inl rfl) hf hnv, Except.map]

/-- Claim C2: in a multi-character short bundle scanned left to right: a
value-needing declaration matched by the FIRST character takes the entire
remainder of the token verbatim as its value, is invoked through the
with-value arm exactly once, and no further characters are scanned; a
value-needing declaration matched by any LATER character raises
`ValueNeeded`; characters resolving to no-value declarations fire their
no-value callbacks in left-to-right order. -/
theorem C2_multishort_rules (p : Parser) :
    (∀ (c : Char) (rest : List Char) (d : Declaration),
        rest ≠ [] →
        find_decl_short p.m_declarations c = some d →
        d.needvalue = true →
        parse_multishort p (c :: rest) =
          (d.callback.invokeVal rest).map (fun e => [e])) ∧
    (∀ (pre : List Char) (c : Char) (rest : List Char) (d : Declaration),
        pre ≠ [] →
        pre.all (resolvesNoval p.m_declarations) = true →
        find_decl_short p.m_declarations c = some d →
        d.needvalue = true →
        parse_multishort p (pre ++ c :: rest) = .error .valueNeeded) ∧
    (∀ s : Str,
        s.all (resolvesNoval p.m_declarations) = true →
        parse_multishort p s =
          .ok (s.filterMap (fun c =>
            (find_decl_short p.m_declarations c).map
              (fun d => Event.noval d.callback.id)))) := by
  refine ⟨?_, ?_, ?_⟩
  · intro c rest d hne hf hnv
    have hlen : (c :: rest).length > 1 := by
      cases rest with
      | nil => exact absurd rfl hne
      | cons _ _ => simp
    simp [parse_multishort, multishort_go, hf, hnv, hlen, hne, Except.map]
  · intro pre c rest d hne hall hf hnv
    exact multishort_go_midbundle p (pre ++ c :: rest) pre true c rest d hall (Or.inr hne) hf hnv
  · intro s hall
    exact multishort_go_all_noval p s s true hall

/-- witness for C2: concrete bundles over the sample declarations. -/
theorem C2_multishort_rules_witness :
    parse_multishort pC ['o', 'x'] = (dOpt.callback.invokeVal ['x']).map (fun e => [e]) ∧
    parse_multishort pC (['v'] ++ 'o' :: ['x']) = .error .valueNeeded ∧
    parse_multishort pC ['v', 'v'] =
      .ok (['v', 'v'].filterMap (fun c =>
        (find_decl_short pC.m_declarations c).map
          (fun d => Event.noval d.callback.id))) :=
  ⟨(C2_multishort_rules pC).1 'o' ['x'] dOpt (by decide) (by decide) (by decide),
   (C2_multishort_rules pC).2.1 ['v'] 'o' ['x'] dOpt (by decide) (by decide) (by decide) (by decide),
   (C2_multishort_rules pC).2.2 ['v', 'v'] (by decide)⟩

end OptParse

namespace OptParse

/-- Claim C3: for a simple short token `-c` whose declaration needs a
value, the next token is consumed as the value exactly when it exists and
does not begin with `-`; otherwise `ValueNeeded` is raised and the
callback is not invoked; on success the scan resumes after the consumed
value token. -/
theorem C3_simpleshort_value_rules (p : Parser) :
    (∀ (c : Char) (d : Declaration) (v : Str),
        find_decl_short p.m_declarations c = some d → d.needvalue = true →
        strIdx v 0 ≠ '-' →
        parse_simpleshort p c (some v) =
          (d.callback.invokeVal v).map (fun e => ([e], true))) ∧
    (∀ (c : Char) (d : Declaration),
        find_decl_short p.m_declarations c = some d → d.needvalue = true →
        parse_simpleshort p c none = .error .valueNeeded) ∧
    (∀ (c : Char) (d : Declaration) (v : Str),
        find_decl_short p.m_declarations c = some d → d.needvalue = true →
        strIdx v 0 = '-' →
        parse_simpleshort p c (some v) = .error .valueNeeded) ∧
    (∀ (pos : List Str) (c : Char) (v : Str) (rest : List Str) (d : Declaration),
        p.m_stopif_funcs.any (fun f => f pos) = false →
        c ≠ '-' →
        find_decl_short p.m_declarations c = some d →
        d.needvalue = true →
        d.callback.kind = CBKind.withval →
        strIdx v 0 ≠ '-' →
        realparse_loop p false pos (['-', c] :: v :: rest) =
          (realparse_loop p false pos rest).map
            (fun r => (r.1, Event.withval d.callback.id v :: r.2))) := by
  refine ⟨?_, ?_, ?_, ?_⟩
  · intro c d v hf hnv hv
    simp [parse_simpleshort, hf, hnv, hv]
  · intro c d hf hnv
    simp [parse_simpleshort, hf, hnv]
  · intro c d v hf hnv hv
    simp [parse_simpleshort, hf, hnv, hv]
  · intro pos c v rest d hstop hc hf hnv hk hv
    have hps : parse_simpleshort p c (some v) =
        .ok ([Event.withval d.callback.id v], true) := by
      simp [parse_simpleshort, hf, hnv, hv, Callback.invokeVal, hk, Except.map]
    have hstep : realparse_step p false pos ['-', c] (some v) =
        .recurse false pos true [Event.withval d.callback.id v] := by
      simp [realparse_step, hc, hps,
            show strIdx ['-', c] 0 = '-' from rfl,
            show strIdx ['-', c] 1 = c from rfl,
            show strIdx [c] 0 = c from rfl]
    rw [realparse_loop]
    simp only [List.head?_cons, hstop, Bool.or_false, Bool.false_or, hstep]
    cases hr : realparse_loop p false pos rest with
    | error e => simp [withEvents, Except.map]
    | ok r => simp [withEvents, Except.map]

end OptParse

namespace OptParse

/-- witness for C3: the four rules at concrete inputs over `pC`. -/
theorem C3_simpleshort_value_rules_witness :
    parse_simpleshort pC 'o' (some ['f']) =
      (dOpt.callback.invokeVal ['f']).map (fun e => ([e], true)) ∧
    parse_simpleshort pC 'o' none = .error .valueNeeded ∧
    parse_simpleshort pC 'o' (some ['-', 'x']) = .error .valueNeeded ∧
    realparse_loop pC false [] [['-', 'o'], ['f']] =
      (realparse_loop pC false [] []).map
        (fun r => (r.1, Event.withval dOpt.callback.id ['f'] :: r.2)) :=
  ⟨(C3_simpleshort_value_rules pC).1 'o' dOpt ['f'] (by decide) (by decide) (by decide),
   (C3_simpleshort_value_rules pC).2.1 'o' dOpt (by decide) (by decide),
   (C3_simpleshort_value_rules pC).2.2.1 'o' dOpt ['-', 'x'] (by decide) (by decide) (by decide),
   (C3_simpleshort_value_rules pC).2.2.2 [] 'o' ['f'] [] dOpt rfl (by decide)
     (by decide) (by decide) (by decide) (by decide)⟩

end OptParse

namespace OptParse

lemma withEvents_nil (r : Except PErr (List Str × List Event)) :
    withEvents [] r = r := by
  cases r with
  | error e => rfl
  | ok pr => cases pr; simp [withEvents]

lemma realparse_loop_stopped (p : Parser) :
    ∀ (args pos : List Str), realparse_loop p true pos args = .ok (pos ++ args, []) := by
  intro args
  induction args with
  | nil => intro pos; simp [realparse_loop]
  | cons a rest ih =>
    intro pos
    have hstep : realparse_step p (true || p.m_stopif_funcs.any (fun f => f pos))
        pos a rest.head? = .recurse true (pos ++ [a]) false [] := by
      simp [realparse_step]
    rw [realparse_loop, hstep]
    simp [withEvents_nil, ih (pos ++ [a])]

/-- Claim C6: a `--` token seen while the stop flag is off (and no stop
predicate fires) consumes itself and raises the flag; once the flag is
on it stays on and every remaining token is appended to the positional
list with no callback fired; scanning `["-v","--","-v"]` with `-v`
declared invokes its callback once and ends with positional `["-v"]`. -/
theorem C6_doubledash_stop (p : Parser) :
    (∀ (pos rest : List Str),
        p.m_stopif_funcs.any (fun f => f pos) = false →
        realparse_loop p false pos (['-', '-'] :: rest) =
          realparse_loop p true pos rest) ∧
    (∀ (args pos : List Str),
        realparse_loop p true pos args = .ok (pos ++ args, [])) ∧
    regParseU true [['-', 'v']] none ⟨1, CBKind.noval⟩
        [['-', 'v'], ['-', '-'], ['-', 'v']] = .ok ([['-', 'v']], [Event.noval 1]) := by
  refine ⟨?_, realparse_loop_stopped p, by decide⟩
  intro pos rest hstop
  have hstep : realparse_step p false pos ['-', '-'] rest.head? =
      .recurse true pos false [] := by
    simp [realparse_step]
  rw [realparse_loop]
  simp only [hstop, Bool.or_false, Bool.false_or, hstep]
  simp [withEvents_nil]

/-- witness for C6: the two conditional parts at concrete inputs. -/
theorem C6_doubledash_stop_witness :
    realparse_loop pC false [] [['-', '-'], ['a']] = realparse_loop pC true [] [['a']] ∧
    realparse_loop pC true [] [['a']] = .ok ([] ++ [['a']], []) :=
  ⟨(C6_doubledash_stop pC).1 [] [['a']] rfl,
   (C6_doubledash_stop pC).2.1 [['a']] []⟩

end OptParse

namespace OptParse

lemma realparse_step_halt (p : Parser) (stop2 : Bool) (pos : List Str) (a : Str)
    (next : Option Str) (out : Except PErr (List Str × List Event))
    (h : realparse_step p stop2 pos a next = .halt out) : ∃ e, out = .error e := by
  unfold realparse_step at h
  repeat' (split at h)
  all_goals first
    | (injection h with h2; exact ⟨_, h2.symm⟩)
    | (cases h)

lemma realparse_step_extends (p : Parser) (stop2 : Bool) (pos : List Str) (a : Str)
    (next : Option Str) (stop3 : Bool) (pos2 : List Str) (skip : Bool) (es : List Event)
    (h : realparse_step p stop2 pos a next = .recurse stop3 pos2 skip es) :
    ∃ l, pos2 = pos ++ l := by
  unfold realparse_step at h
  repeat' (split at h)
  all_goals first
    | (injection h with h1 h2 h3 h4; exact ⟨[], h2.symm.trans (List.append_nil pos).symm⟩)
    | (injection h with h1 h2 h3 h4; exact ⟨[a], h2.symm⟩)
    | (cases h)

lemma realparse_loop_extends (p : Parser) :
    ∀ (n : Nat) (args : List Str), args.length ≤ n →
      ∀ (stop : Bool) (pos posF : List Str) (es : List Event),
        realparse_loop p stop pos args = .ok (posF, es) → ∃ l, posF = pos ++ l := by
  intro n
  induction n with
  | zero =>
    intro args hlen stop pos posF es h
    have hnil : args = [] := List.eq_nil_of_length_eq_zero (Nat.le_zero.mp hlen)
    subst hnil
    rw [realparse_loop] at h
    injection h with h1
    injection h1 with ha hb
    exact ⟨[], by simp [← ha]⟩
  | succ n ih =>
    intro args hlen stop pos posF es h
    cases args with
    | nil =>
      rw [realparse_loop] at h
      injection h with h1
      injection h1 with ha hb
      exact ⟨[], by simp [← ha]⟩
    | cons a rest =>
      have hrest : rest.length ≤ n := by
        simp only [List.length_cons] at hlen
        omega
      rw [realparse_loop] at h
      cases hstep : realparse_step p (stop || p.m_stopif_funcs.any (fun f => f pos))
          pos a rest.head? with
      | halt out =>
        rw [hstep] at h
        obtain ⟨e, he⟩ := realparse_step_halt p _ pos a rest.head? out hstep
        rw [he] at h
        cases h
      | recurse stop2 pos2 skip es2 =>
        rw [hstep] at h
        obtain ⟨l1, hl1⟩ :=
          realparse_step_extends p _ pos a rest.head? stop2 pos2 skip es2 hstep
        cases skip with
        | false =>
          simp only [Bool.false_eq_true, if_false] at h
          cases hr : realparse_loop p stop2 pos2 rest with
          | error e => rw [hr] at h; cases h
          | ok pr =>
            rw [hr] at h
            obtain ⟨pos3, es3⟩ := pr
            obtain ⟨l2, hl2⟩ := ih rest hrest stop2 pos2 pos3 es3 hr
            simp only [withEvents] at h
            injection h with h1
            injection h1 with ha hb
            exact ⟨l1 ++ l2, by rw [← ha, hl2, hl1, List.append_assoc]⟩
        | true =>
          simp only [if_true] at h
          cases rest with
          | nil =>
            injection h with h1
            injection h1 with ha hb
            exact ⟨l1, by rw [← ha, hl1]⟩
          | cons b rest2 =>
            have hrest2 : rest2.length ≤ n := by
              simp only [List.length_cons] at hrest
              omega
            simp only [] at h
            cases hr : realparse_loop p stop2 pos2 rest2 with
            | error e => rw [hr] at h; cases h
            | ok pr =>
              rw [hr] at h
              obtain ⟨pos3, es3⟩ := pr
              obtain ⟨l2, hl2⟩ := ih rest2 hrest2 stop2 pos2 pos3 es3 hr
              simp only [withEvents] at h
              injection h with h1
              injection h1 with ha hb
              exact ⟨l1 ++ l2, by rw [← ha, hl2, hl1, List.append_assoc]⟩

end OptParse

namespace OptParse

lemma realparse_extends (p q : Parser) (es : List Event)
    (h : realparse p = .ok (q, es)) : ∃ l, q.m_positional = p.m_positional ++ l := by
  unfold realparse at h
  cases hr : realparse_loop p false p.m_positional p.m_vargs with
  | error e => rw [hr] at h; cases h
  | ok pr =>
    obtain ⟨pos3, es3⟩ := pr
    rw [hr] at h
    obtain ⟨l, hl⟩ := realparse_loop_extends p p.m_vargs.length p.m_vargs le_rfl
      false p.m_positional pos3 es3 hr
    injection h with h1
    injection h1 with ha hb
    refine ⟨l, ?_⟩
    rw [← ha]
    exact hl

/-- Claim C9: the positional list survives across `parse` calls — `parse`
never clears it, so after a second call the entries produced by the first
call remain as a prefix of `positional()`. -/
theorem C9_positional_persists (p : Parser) (a1 a2 : List Str) (q1 q2 : Parser)
    (es1 es2 : List Event) (_h1 : parse p a1 = .ok (q1, es1))
    (h2 : parse q1 a2 = .ok (q2, es2)) :
    ∃ l, q2.m_positional = q1.m_positional ++ l := by
  unfold parse at h2
  obtain ⟨l, hl⟩ := realparse_extends _ _ _ h2
  exact ⟨l, hl⟩

/-- witness for C9: two successive parses of one positional token each. -/
theorem C9_positional_persists_witness :
    ∃ l, Parser.m_positional { m_positional := [['a'], ['b']], m_vargs := [['b']] } =
      Parser.m_positional { m_positional := [['a']], m_vargs := [['a']] } ++ l :=
  C9_positional_persists {} [['a']] [['b']]
    { m_positional := [['a']], m_vargs := [['a']] }
    { m_positional := [['a'], ['b']], m_vargs := [['b']] } [] [] rfl rfl

end OptParse

namespace OptParse

lemma classifyToken_wantvalue (st st2 : AddState) (s : Str)
    (h : classifyToken st s = .ok st2) :
    st2.longwantvalue = (if tokenIsLong s then longMarker s else st.longwantvalue) ∧
    st2.shortwantvalue = (if tokenIsShort s then shortMarker s else st.shortwantvalue) := by
  unfold classifyToken at h
  repeat' (split at h)
  all_goals try (cases h)
  all_goals constructor
  all_goals simp [tokenIsLong, tokenIsShort, longMarker, shortMarker, *]

/-- Claim C5 (amended): during declaration compilation each grammar token
of a category OVERWRITES its category's flag with that token's own
value-marker status, so after a successful compilation `longwantvalue`
(resp. `shortwantvalue`) equals the marker status of the LAST long
(resp. short) token, not the disjunction over all of them. -/
theorem C5_wantvalue_last_token :
    ∀ (strs : List Str) (st st2 : AddState), compileTokens strs st = .ok st2 →
      st2.longwantvalue = foldWant tokenIsLong longMarker strs st.longwantvalue ∧
      st2.shortwantvalue = foldWant tokenIsShort shortMarker strs st.shortwantvalue := by
  intro strs
  induction strs with
  | nil =>
    intro st st2 h
    rw [compileTokens] at h
    injection h with h2
    subst h2
    exact ⟨rfl, rfl⟩
  | cons s rest ih =>
    intro st st2 h
    rw [compileTokens] at h
    cases hc : classifyToken st s with
    | error e => rw [hc] at h; cases h
    | ok st3 =>
      rw [hc] at h
      obtain ⟨hl, hs⟩ := classifyToken_wantvalue st st3 s hc
      obtain ⟨hl2, hs2⟩ := ih st3 st2 h
      constructor
      · rw [hl2, foldWant, ← hl]
      · rw [hs2, foldWant, ← hs]

/-- witness for C5 (amended): compiling `{"--out=?", "--output"}` from the
initial state: the long flag ends up as the last token's marker. -/
theorem C5_wantvalue_last_token_witness :
    AddState.longwantvalue
        { hadlongopts := true, longwantvalue := false,
          longnames := [⟨['o', 'u', 't'], true⟩, ⟨['o', 'u', 't', 'p', 'u', 't'], true⟩] } =
      foldWant tokenIsLong longMarker ["--out=?".data, "--output".data] false ∧
    AddState.shortwantvalue
        { hadlongopts := true, longwantvalue := false,
          longnames := [⟨['o', 'u', 't'], true⟩, ⟨['o', 'u', 't', 'p', 'u', 't'], true⟩] } =
      foldWant tokenIsShort shortMarker ["--out=?".data, "--output".data] false :=
  C5_wantvalue_last_token ["--out=?".data, "--output".data] {}
    { hadlongopts := true, longwantvalue := false,
      longnames := [⟨['o', 'u', 't'], true⟩, ⟨['o', 'u', 't', 'p', 'u', 't'], true⟩] }
    (by decide)

end OptParse

namespace OptParse

lemma take_length_append (l1 l2 : Str) : (l1 ++ l2).take l1.length = l1 := by
  induction l1 with
  | nil => simp
  | cons a t ih => simp [ih]

lemma find_first_of_append (l1 l2 : Str) (c : Char) (h : c ∉ l1) :
    find_first_of (l1 ++ c :: l2) c = some l1.length := by
  induction l1 with
  | nil => simp [find_first_of]
  | cons a t ih =>
    rw [List.mem_cons, not_or] at h
    have hac : ¬ (a = c) := fun hh => h.1 hh.symm
    simp [find_first_of, hac, ih h.2]

/-- Claim C8 (amended): whenever a long token `--nm=val` (with `nm` free
of `=`) resolves to no declaration, the unknown-option policy is
consulted with `--` ++ `nm` — the parsed name re-prefixed, the `=val`
text stripped — and its verdict alone decides between `InvalidOption`
and a silent skip. -/
theorem C8_unknown_receives_prefixed_name (p : Parser) (f : Str → Bool) (nm val : Str)
    (hf : p.m_on_unknownoptfn = some f) (hnm : '=' ∉ nm)
    (hfind : find_decl_long p.m_declarations nm = none) :
    parse_longoption p ('-' :: '-' :: (nm ++ '=' :: val)) =
      (if f ('-' :: '-' :: nm) then .error .invalidOption else .ok []) := by
  have hdm : ('=' : Char) ≠ '-' := by decide
  have heq : find_first_of ('-' :: '-' :: (nm ++ '=' :: val)) '=' = some (nm.length + 2) := by
    rw [find_first_of, if_neg (fun hh => hdm hh.symm)]
    rw [find_first_of, if_neg (fun hh => hdm hh.symm)]
    rw [find_first_of_append nm val '=' hnm]
    simp only [Option.map, Option.some.injEq]
  have hname : longoption_name ('-' :: '-' :: (nm ++ '=' :: val)) = nm := by
    unfold longoption_name
    rw [heq]
    have hl : nm.length + 2 - 2 = nm.length := by omega
    change List.take (nm.length + 2 - 2) (nm ++ '=' :: val) = nm
    rw [hl]
    exact take_length_append nm ('=' :: val)
  unfold parse_longoption
  rw [hname, hfind]
  simp [invoke_on_unknown_long, invoke_on_unknown_prox, hf]

/-- witness for C8 (amended): a policy that is fatal exactly on
`"--bogus"` fires on the token `--bogus=x`. -/
theorem C8_unknown_receives_prefixed_name_witness :
    parse_longoption
        { m_on_unknownoptfn := some (fun s => decide (s = '-' :: '-' :: "bogus".data)) }
        ('-' :: '-' :: ("bogus".data ++ '=' :: ['x'])) =
      (if (fun s => decide (s = '-' :: '-' :: "bogus".data)) ('-' :: '-' :: "bogus".data)
       then .error .invalidOption else .ok []) :=
  C8_unknown_receives_prefixed_name
    { m_on_unknownoptfn := some (fun s => decide (s = '-' :: '-' :: "bogus".data)) }
    (fun s => decide (s = '-' :: '-' :: "bogus".data))
    "bogus".data ['x'] rfl (by decide) rfl

end OptParse
